import Mathlib

/-!
Shallow embedding of the Collbine admin analytics scripts
(`analytics.py`, `generate_test_data.py`) and proofs of the
specification's claims about them.

Timestamps are modelled as `Int` seconds since the Unix epoch, in UTC.
Python's `datetime.date()` on a timezone-aware UTC datetime corresponds
to floor division of the epoch seconds by 86400, and `.hour` to
`(t mod 86400) / 3600`; for the positive divisors used here, Lean's
Euclidean `/` and `%` on `Int` agree with Python's floor semantics.
-/

namespace Collbine

/-- Calendar date (as a day number) of a UTC instant, as Python's
`datetime.date()` computes it from epoch seconds. -/
def dateOf (t : Int) : Int := t / 86400

/-- Hour-of-day (0..23) of a UTC instant, as Python's `.hour`. -/
def hourOf (t : Int) : Int := (t % 86400) / 3600

/-- From `analytics.py` lines 135-142: if the current UTC hour is 0, compute
for yesterday (`now - timedelta(days=1)`), else for today. -/
def target_date (now : Int) : Int :=
  if hourOf now = 0 then dateOf (now - 86400) else dateOf now

/-- A row of the `terminal_logs` table as the aggregator sees it.
`shop_id` and `phone_number` are nullable; `created_at` has been parsed
to a timezone-aware UTC timestamp (`pd.to_datetime(..., utc=True)`). -/
structure LogRecord where
  shop_id : Option String
  phone_number : Option String
  created_at : Int
  transaction_type : String
deriving DecidableEq, Repr

/-- From `analytics.py` line 145: `df[df["created_at"].dt.date == target_date]`. -/
def df_today (df : List LogRecord) (d : Int) : List LogRecord :=
  df.filter (fun r => dateOf r.created_at = d)

/-- First-occurrence deduplication, the order-preserving semantics of
pandas `Series.unique()`: keep each value at its first appearance. -/
def uniqueFirst : List String → List String
  | [] => []
  | x :: xs => x :: (uniqueFirst xs).filter (fun y => y ≠ x)

/-- From `analytics.py` line 152: `df_today["shop_id"].dropna().unique()`. -/
def unique_shop_ids (rows : List LogRecord) : List String :=
  uniqueFirst (rows.filterMap (fun r => r.shop_id))

/-- From `analytics.py` line 160: `df_today[df_today["shop_id"] == shop_id]`.
A pandas `==` comparison against a null cell is false, so rows with
null `shop_id` never enter any partition. -/
def df_shop (rows : List LogRecord) (shop : String) : List LogRecord :=
  rows.filter (fun r => r.shop_id = some shop)

/-- From `analytics.py` line 164:
`df_shop["phone_number"].dropna().astype(str).nunique()`.
Phone numbers are strings in the data model, so `astype(str)` is the
identity; `nunique` counts distinct non-null values. -/
def unique_customers (rows : List LogRecord) : Nat :=
  ((rows.filterMap (fun r => r.phone_number)).dedup).length

/-- The item written to DynamoDB by `save_unique_customer_count_ddb`. -/
structure DailyShopSummary where
  shop_id : String
  date : Int
  unique_customers : Nat
  updated_at : Int
deriving DecidableEq, Repr

/-- The summaries the per-shop loop (`analytics.py` lines 159-172) writes,
in loop order: one per shop id in first-encounter order, for the target
date `d`, with the per-shop distinct-phone count. -/
def summariesFor (df : List LogRecord) (d : Int) (now : Int) :
    List DailyShopSummary :=
  (unique_shop_ids (df_today df d)).map (fun shop =>
    { shop_id := shop
      date := d
      unique_customers := unique_customers (df_shop (df_today df d) shop)
      updated_at := now })

/-- The DynamoDB key of a summary item: partition key `shop_id`,
sort key `date`. -/
def keyOf (sm : DailyShopSummary) : String × Int := (sm.shop_id, sm.date)

/-- The DynamoDB summary table, keyed by (shop_id, date). -/
def Store : Type := String × Int → Option DailyShopSummary

/-- Function `save_unique_customer_count_ddb` (`analytics.py` lines 96-118):
`table.put_item` replaces any existing item with the same key. -/
def put_item (s : Store) (sm : DailyShopSummary) : Store :=
  fun k => if k = keyOf sm then some sm else s k

/-- Effect on the store of performing a list of upserts in order. -/
def applyWrites (s : Store) (L : List DailyShopSummary) : Store :=
  L.foldl put_item s

/-- One full aggregator invocation at instant `now` over fetched rows
`df`, starting from store state `s`. -/
def run_aggregator (s : Store) (df : List LogRecord) (now : Int) : Store :=
  applyWrites s (summariesFor df (target_date now) now)

/-- Spec-side definition, written from the spec's invariant wording for
refinement comparison with the code's computation: the cardinality of the
set of distinct non-null `phone_number` values among the records whose
`shop_id` matches and whose `created_at`, in UTC, falls on date `d`. -/
def specUniqueCustomers (df : List LogRecord) (shop : String) (d : Int) : Nat :=
  ((df.filter (fun r => r.shop_id = some shop ∧ dateOf r.created_at = d)).filterMap
    (fun r => r.phone_number)).toFinset.card

/-- A concrete log row used by witness theorems. -/
def sampleRow : LogRecord :=
  { shop_id := some ("A"), phone_number := some ("p"), created_at := 0,
    transaction_type := "t" }

/-- The summary the aggregator computes from `[sampleRow]` on date 0. -/
def sampleSummary : DailyShopSummary :=
  { shop_id := "A", date := 0, unique_customers := 1, updated_at := 0 }

/-- A concrete log row with null `shop_id` and null `phone_number`,
used by witness theorems. -/
def nullRow : LogRecord :=
  { shop_id := none, phone_number := none, created_at := 0,
    transaction_type := "t" }

/-- The per-shop loop with a fallible remote write: `fails sm = true`
means `table.put_item` raises for that item. The loop body has no
try/except (`analytics.py` lines 159-172), so the first failure aborts
the remaining iterations; the error carries the store as already written
and the summary whose write failed. -/
def applyWritesE (fails : DailyShopSummary → Bool) (s : Store) :
    List DailyShopSummary → Except (Store × DailyShopSummary) Store
  | [] => Except.ok s
  | sm :: L =>
    if fails sm then Except.error (s, sm)
    else applyWritesE fails (put_item s sm) L

/-- One aggregator invocation whose DynamoDB writes may fail. -/
def run_aggregatorE (fails : DailyShopSummary → Bool) (s : Store)
    (df : List LogRecord) (now : Int) : Except (Store × DailyShopSummary) Store :=
  applyWritesE fails s (summariesFor df (target_date now) now)

/-- The three ways the aggregator's main block terminates: the two
informational early exits (`analytics.py` lines 128-129 and 148-149) and
normal processing of some number of shops. -/
inductive RunReport where
  | noData : RunReport
  | noDataForDate : RunReport
  | processed : Nat → RunReport
deriving DecidableEq, Repr

/-- The `__main__` block of `analytics.py`: report which branch was taken
and the list of summaries upserted. -/
def run_main (df : List LogRecord) (now : Int) : RunReport × List DailyShopSummary :=
  if df.isEmpty then (RunReport.noData, [])
  else if (df_today df (target_date now)).isEmpty then (RunReport.noDataForDate, [])
  else (RunReport.processed (unique_shop_ids (df_today df (target_date now))).length,
    summariesFor df (target_date now) now)

/-- A second concrete log row, for shop "B", used by witness theorems. -/
def sampleRowB : LogRecord :=
  { shop_id := some ("B"), phone_number := some ("q"), created_at := 0,
    transaction_type := "t" }

/-- The summary computed for shop "A" from `[sampleRow, sampleRowB]` at
instant 3600. -/
def smA : DailyShopSummary :=
  { shop_id := "A", date := 0, unique_customers := 1, updated_at := 3600 }

/-- The summary computed for shop "B" from `[sampleRow, sampleRowB]` at
instant 3600. -/
def smB : DailyShopSummary :=
  { shop_id := "B", date := 0, unique_customers := 1, updated_at := 3600 }

/-- A failure model where exactly shop "B"'s write raises. -/
def failShopB : DailyShopSummary → Bool := fun sm => sm.shop_id = "B"

/-- The empty DynamoDB table. -/
def emptyStore : Store := fun _ => none

/-- A concrete log row for shop "Z" with a null phone number, used by
witness theorems. -/
def rowZ : LogRecord :=
  { shop_id := some ("Z"), phone_number := none, created_at := 0,
    transaction_type := "t" }

/-- Position of the first occurrence of `a` in a list (list length when
absent), used to state first-encounter ordering. -/
def firstIdx (a : String) : List String → Nat
  | [] => 0
  | x :: xs => if x = a then 0 else firstIdx a xs + 1

/-- Python `random.randint(a, b)`: raises `ValueError` when `b < a`,
otherwise returns an integer in the inclusive range `[a, b]`. The draw
outcome is an arbitrary natural mapped into the range. -/
def randint (a b draw : Nat) : Option Nat :=
  if a ≤ b then some (a + draw % (b - a + 1)) else none

/-- The in-range value `randint` yields when it does not raise. -/
def randintVal (a b draw : Nat) : Nat := a + draw % (b - a + 1)

/-- Outcomes of all random draws one generator invocation makes:
per-(day, shop) log-count draw, per-row time-of-day and phone-pool draws,
and the fixed pool of 50 generated phone numbers. -/
structure GenDraws where
  count : Nat → String → Nat
  hour : Nat → String → Nat → Nat
  minute : Nat → String → Nat → Nat
  second : Nat → String → Nat → Nat
  phoneIdx : Nat → String → Nat → Nat
  pool : Nat → String

/-- A synthetic log row built by `generate_test_data.py` lines 63-82. -/
structure GenRecord where
  shop_id : String
  phone_number : String
  transaction_type : String
  created_at : Int
deriving DecidableEq, Repr

/-- One synthetic row: the constant transaction type, a pooled phone
number, and a timestamp on day `today - dayOff` at a random
hour/minute/second (`randint(0,23)`, `randint(0,59)`, `randint(0,59)`
never raise). -/
def mkRow (today : Int) (dw : GenDraws) (dayOff : Nat) (shop : String)
    (i : Nat) : GenRecord :=
  { shop_id := shop
    phone_number := dw.pool (dw.phoneIdx dayOff shop i % 50)
    transaction_type := "stamp_collection"
    created_at := (today - (dayOff : Int)) * 86400 +
      ((randintVal 0 23 (dw.hour dayOff shop i) * 3600 +
        randintVal 0 59 (dw.minute dayOff shop i) * 60 +
        randintVal 0 59 (dw.second dayOff shop i) : Nat) : Int) }

/-- The inner loop body for one (day, shop) pair:
`num_logs = random.randint(5, num_logs_per_shop)` rows, or a raise when
that call fails. -/
def genShopDay (today : Int) (cap : Nat) (dw : GenDraws) (dayOff : Nat)
    (shop : String) : Option (List GenRecord) :=
  (randint 5 cap (dw.count dayOff shop)).map (fun n =>
    (List.range n).map (mkRow today dw dayOff shop))

/-- The rows `genShopDay` produces when `randint` does not raise. -/
def shopDayRows (today : Int) (cap : Nat) (dw : GenDraws) (dayOff : Nat)
    (shop : String) : List GenRecord :=
  (List.range (randintVal 5 cap (dw.count dayOff shop))).map
    (mkRow today dw dayOff shop)

/-- The `for shop_id in shop_ids` loop for one day; a raise anywhere
produces no row list at all (rows are only inserted after generation
completes). -/
def genForShops (today : Int) (cap : Nat) (dw : GenDraws) (dayOff : Nat) :
    List String → Option (List GenRecord)
  | [] => some []
  | s :: ss =>
    match genShopDay today cap dw dayOff s,
        genForShops today cap dw dayOff ss with
    | some xs, some ys => some (xs ++ ys)
    | _, _ => none

/-- The `for day_offset in range(days_back + 1)` loop. -/
def genForDays (today : Int) (cap : Nat) (dw : GenDraws)
    (shopIds : List String) : List Nat → Option (List GenRecord)
  | [] => some []
  | d :: ds =>
    match genForShops today cap dw d shopIds,
        genForDays today cap dw shopIds ds with
    | some xs, some ys => some (xs ++ ys)
    | _, _ => none

/-- Function `generate_test_data` (`generate_test_data.py` lines 24-82): build
`all_data` over `days_back + 1` days for the given shop ids, or raise. -/
def generate_test_data (shopIds : List String) (cap daysBack : Nat)
    (today : Int) (dw : GenDraws) : Option (List GenRecord) :=
  genForDays today cap dw shopIds (List.range (daysBack + 1))

/-- Total counterpart of `genForShops` in the non-raising case. -/
def genShopsT (today : Int) (cap : Nat) (dw : GenDraws) (dayOff : Nat) :
    List String → List GenRecord
  | [] => []
  | s :: ss => shopDayRows today cap dw dayOff s ++
      genShopsT today cap dw dayOff ss

/-- Total counterpart of `genForDays` in the non-raising case. -/
def genDaysT (today : Int) (cap : Nat) (dw : GenDraws)
    (shopIds : List String) : List Nat → List GenRecord
  | [] => []
  | d :: ds => genShopsT today cap dw d shopIds ++
      genDaysT today cap dw shopIds ds

/-- Number of generated rows for one shop on one calendar date. -/
def shopDayCount (rows : List GenRecord) (s : String) (d : Int) : Nat :=
  rows.countP (fun r => r.shop_id = s ∧ dateOf r.created_at = d)

/-- A concrete all-zero draw outcome, used by witness theorems. -/
def constDraws : GenDraws :=
  { count := fun _ _ => 0
    hour := fun _ _ _ => 0
    minute := fun _ _ _ => 0
    second := fun _ _ _ => 0
    phoneIdx := fun _ _ _ => 0
    pool := fun _ => "+6580000000" }

/-- Helper: a decide-friendly restatement: dates shift by one day when the
instant shifts by 86400 seconds. -/
theorem dateOf_sub_day (t : Int) : dateOf (t - 86400) = dateOf t - 1 := by
  have h : t - 86400 = t + (-1) * 86400 := by ring
  rw [dateOf, dateOf, h, Int.add_mul_ediv_right _ _ (by norm_num)]
  ring

/-- C2: if the current UTC hour is 0 the target date is yesterday,
otherwise (hours 1 through 23) it is today. -/
theorem target_date_rule (now : Int) :
    (hourOf now = 0 → target_date now = dateOf now - 1) ∧
    (hourOf now ≠ 0 → target_date now = dateOf now) := by
  constructor
  · intro h
    rw [target_date, if_pos h, dateOf_sub_day]
  · intro h
    rw [target_date, if_neg h]

/-- Witness for C2 at concrete instants: 2026-01-21T00:15:00Z-like
instant 432900 (hour 0) and instant 450000 (hour 5). -/
theorem target_date_rule_witness :
    target_date 432900 = dateOf 432900 - 1 ∧ target_date 450000 = dateOf 450000 := by
  constructor
  · exact (target_date_rule 432900).1 (by decide)
  · exact (target_date_rule 450000).2 (by decide)

/-- Store lookups after a sequence of upserts: the last write for the key
wins, and keys never written keep their prior value. -/
theorem applyWrites_apply (s : Store) (L : List DailyShopSummary) (k : String × Int) :
    applyWrites s L k = ((L.filter (fun sm => keyOf sm = k)).getLast?).or (s k) := by
  induction L using List.reverseRecOn with
  | nil => simp [applyWrites]
  | append_singleton l x ih =>
    have h1 : applyWrites s (l ++ [x]) = put_item (applyWrites s l) x := by
      simp [applyWrites, List.foldl_append]
    rw [h1, List.filter_append]
    by_cases hk : keyOf x = k
    · have h2 : List.filter (fun sm => decide (keyOf sm = k)) [x] = [x] := by
        simp [hk]
      rw [h2, List.getLast?_concat, Option.or_some]
      simp [put_item, hk]
    · have h2 : List.filter (fun sm => decide (keyOf sm = k)) [x] = [] := by
        simp [hk]
      rw [h2, List.append_nil, ← ih]
      simp only [put_item]
      rw [if_neg (fun h => hk h.symm)]

/-- C3: running the aggregator a second time over the same fetched data at
the same instant rewrites every key with an equal record, so the store
after two runs equals the store after one (upsert overwrites, never
accumulates). -/
theorem run_aggregator_idempotent (s : Store) (df : List LogRecord) (now : Int) :
    run_aggregator (run_aggregator s df now) df now = run_aggregator s df now := by
  funext k
  rw [run_aggregator, run_aggregator, applyWrites_apply, applyWrites_apply]
  cases ((summariesFor df (target_date now) now).filter
      (fun sm => keyOf sm = k)).getLast? with
  | none => rw [Option.none_or, Option.none_or]
  | some v => rw [Option.or_some, Option.or_some]

/-- The per-shop computation of the loop body equals the spec's set
cardinality: filtering the target-date rows down to one shop and counting
distinct non-null phone numbers is the cardinality of the spec's set. -/
theorem unique_customers_eq_spec (df : List LogRecord) (d : Int) (shop : String) :
    unique_customers (df_shop (df_today df d) shop) = specUniqueCustomers df shop d := by
  rw [unique_customers, specUniqueCustomers, List.card_toFinset, df_shop, df_today,
    List.filter_filter]
  congr 3
  apply List.filter_congr
  intro r _
  simp [decide_eq_true_eq, Bool.and_comm]

/-- C1: every summary the aggregator writes for target date `d` carries,
as `unique_customers`, exactly the cardinality of the set of distinct
non-null phone numbers among the fetched records whose shop id matches
and whose UTC date is `d`. -/
theorem written_unique_customers_eq_spec (df : List LogRecord) (d now : Int)
    (sm : DailyShopSummary) (h : sm ∈ summariesFor df d now) :
    sm.date = d ∧ sm.unique_customers = specUniqueCustomers df sm.shop_id d := by
  rw [summariesFor] at h
  obtain ⟨shop, _, rfl⟩ := List.mem_map.mp h
  exact ⟨rfl, unique_customers_eq_spec df d shop⟩

/-- Witness for C1 on a one-row table: shop "A", one phone number, one
summary with count 1. -/
theorem written_unique_customers_eq_spec_witness :
    sampleSummary ∈ summariesFor [sampleRow] 0 0 ∧
    (sampleSummary.date = 0 ∧
      sampleSummary.unique_customers =
        specUniqueCustomers [sampleRow] sampleSummary.shop_id 0) :=
  ⟨by decide, written_unique_customers_eq_spec [sampleRow] 0 0 sampleSummary (by decide)⟩

/-- C4: a record with null `phone_number`, wherever it sits in the fetched
sequence, leaves every shop's distinct-customer count unchanged; a record
with null `shop_id` belongs to no per-shop partition and its presence
leaves the whole list of written summaries unchanged. -/
theorem null_handling (df₁ df₂ : List LogRecord) (r : LogRecord) (d now : Int) :
    (r.phone_number = none →
      ∀ shop, unique_customers (df_shop (df_today (df₁ ++ r :: df₂) d) shop) =
        unique_customers (df_shop (df_today (df₁ ++ df₂) d) shop)) ∧
    (r.shop_id = none →
      (∀ rows shop, r ∉ df_shop rows shop) ∧
      summariesFor (df₁ ++ r :: df₂) d now = summariesFor (df₁ ++ df₂) d now) := by
  constructor
  · intro hphone shop
    rw [unique_customers, unique_customers]
    congr 2
    simp only [df_today, df_shop, List.filter_append, List.filter_cons,
      List.filterMap_append]
    by_cases hq : dateOf r.created_at = d
    · by_cases hp : r.shop_id = some shop
      · simp [hq, hp, List.filterMap_cons, hphone]
      · simp [hq, hp]
    · simp [hq]
  · intro hshop
    constructor
    · intro rows shop hm
      rw [df_shop, List.mem_filter, hshop] at hm
      simp at hm
    · have h1 : ∀ shop, df_shop (df_today (df₁ ++ r :: df₂) d) shop =
          df_shop (df_today (df₁ ++ df₂) d) shop := by
        intro shop
        simp only [df_today, df_shop, List.filter_append, List.filter_cons]
        by_cases hq : dateOf r.created_at = d
        · simp [hq, hshop]
        · simp [hq]
      have h2 : unique_shop_ids (df_today (df₁ ++ r :: df₂) d) =
          unique_shop_ids (df_today (df₁ ++ df₂) d) := by
        simp only [unique_shop_ids, df_today, List.filter_append, List.filter_cons,
          List.filterMap_append]
        by_cases hq : dateOf r.created_at = d
        · simp [hq, hshop, List.filterMap_cons]
        · simp [hq]
      rw [summariesFor, summariesFor, h2]
      apply List.map_congr_left
      intro shop _
      rw [h1]

/-- Witness for C4: inserting `nullRow` (null shop id, null phone) after
`sampleRow` changes neither shop "A"'s count, nor its partition, nor the
written summaries. -/
theorem null_handling_witness :
    unique_customers (df_shop (df_today ([sampleRow] ++ nullRow :: []) 0) "A") =
      unique_customers (df_shop (df_today ([sampleRow] ++ []) 0) "A") ∧
    nullRow ∉ df_shop [sampleRow, nullRow] "A" ∧
    summariesFor ([sampleRow] ++ nullRow :: []) 0 0 =
      summariesFor ([sampleRow] ++ []) 0 0 :=
  ⟨(null_handling [sampleRow] [] nullRow 0 0).1 rfl ("A"),
    ((null_handling [sampleRow] [] nullRow 0 0).2 rfl).1 [sampleRow, nullRow] "A",
    ((null_handling [sampleRow] [] nullRow 0 0).2 rfl).2⟩

/-- Helper for C5: running the fallible write loop over a list whose
first failing element is `sm` stops there, leaving exactly the writes of
the prefix `L₁` applied. -/
theorem applyWritesE_append_fail (fails : DailyShopSummary → Bool)
    (sm : DailyShopSummary) (L₂ : List DailyShopSummary) :
    ∀ (L₁ : List DailyShopSummary) (s : Store), (∀ x ∈ L₁, fails x = false) →
      fails sm = true →
      applyWritesE fails s (L₁ ++ sm :: L₂) = Except.error (applyWrites s L₁, sm)
  | [], s, _, hfail => by
    simp only [List.nil_append, applyWritesE, hfail, if_pos]
    rfl
  | x :: L₁, s, hok, hfail => by
    have hx : fails x = false := hok x (List.mem_cons_self x L₁)
    simp only [List.cons_append, applyWritesE, hx, Bool.false_eq_true, if_neg,
      Bool.not_eq_true]
    exact applyWritesE_append_fail fails sm L₂ L₁ (put_item s x)
      (fun y hy => hok y (List.mem_cons_of_mem x hy)) hfail

/-- C5: if the upsert for one shop raises while all earlier shops' upserts
succeed, the run terminates with exactly the earlier shops' summaries
written: no further upserts, no retry, no rollback. -/
theorem write_failure_aborts (fails : DailyShopSummary → Bool) (s : Store)
    (df : List LogRecord) (now : Int) (L₁ L₂ : List DailyShopSummary)
    (sm : DailyShopSummary)
    (hsplit : summariesFor df (target_date now) now = L₁ ++ sm :: L₂)
    (hok : ∀ x ∈ L₁, fails x = false) (hfail : fails sm = true) :
    run_aggregatorE fails s df now = Except.error (applyWrites s L₁, sm) := by
  rw [run_aggregatorE, hsplit]
  exact applyWritesE_append_fail fails sm L₂ L₁ s hok hfail

/-- Witness for C5: with shops "A" then "B" on the target date and "B"'s
write failing, the run errors out with only shop "A"'s summary written. -/
theorem write_failure_aborts_witness :
    run_aggregatorE failShopB emptyStore [sampleRow, sampleRowB] 3600 =
      Except.error (applyWrites emptyStore [smA], smB) :=
  write_failure_aborts failShopB emptyStore [sampleRow, sampleRowB] 3600
    [smA] [] smB (by decide) (by decide) (by decide)

/-- C6: when no fetched row falls on the target date (in particular when
the fetch is empty), the run takes an informational early-exit branch and
performs zero upserts. -/
theorem empty_run_no_writes (df : List LogRecord) (now : Int)
    (h : df_today df (target_date now) = []) :
    (run_main df now).2 = [] ∧
    ((run_main df now).1 = RunReport.noData ∨
      (run_main df now).1 = RunReport.noDataForDate) := by
  rw [run_main]
  by_cases hdf : df.isEmpty
  · simp [hdf]
  · simp [hdf, h]

/-- Witness for C6: one fetched row, but dated off the target date. -/
theorem empty_run_no_writes_witness :
    (run_main [nullRow] 3600000).2 = [] ∧
    ((run_main [nullRow] 3600000).1 = RunReport.noData ∨
      (run_main [nullRow] 3600000).1 = RunReport.noDataForDate) :=
  empty_run_no_writes [nullRow] 3600000 (by decide)

/-- Deduplication `uniqueFirst` neither adds nor removes values, it only collapses
duplicates. -/
theorem mem_uniqueFirst (a : String) : ∀ (l : List String), a ∈ uniqueFirst l ↔ a ∈ l
  | [] => Iff.rfl
  | x :: xs => by
    rw [uniqueFirst]
    simp only [List.mem_cons, List.mem_filter, mem_uniqueFirst a xs,
      decide_eq_true_eq]
    by_cases hx : a = x
    · simp [hx]
    · simp [hx]

/-- Filtering preserves the relative order of first occurrences of
surviving values. -/
theorem firstIdx_filter_lt (p : String → Bool) :
    ∀ (l : List String) (x y : String), x ∈ l → p x = true → p y = true →
      firstIdx x l < firstIdx y l →
      firstIdx x (l.filter p) < firstIdx y (l.filter p)
  | [], x, y, hx, _, _, _ => absurd hx (List.not_mem_nil x)
  | h :: t, x, y, hx, hpx, hpy, hlt => by
    by_cases hhx : h = x
    · subst hhx
      have hy : h ≠ y := by
        intro he
        rw [firstIdx, if_pos rfl, firstIdx, if_pos he] at hlt
        exact Nat.lt_irrefl 0 hlt
      rw [List.filter_cons, if_pos hpx, firstIdx, if_pos rfl, firstIdx, if_neg hy]
      exact Nat.succ_pos _
    · by_cases hhy : h = y
      · rw [firstIdx, if_neg hhx, firstIdx, if_pos hhy] at hlt
        exact absurd hlt (Nat.not_lt_zero _)
      · rw [firstIdx, if_neg hhx, firstIdx, if_neg hhy, Nat.succ_lt_succ_iff] at hlt
        have hxt : x ∈ t := (List.mem_cons.mp hx).resolve_left (fun he => hhx he.symm)
        have ih := firstIdx_filter_lt p t x y hxt hpx hpy hlt
        rw [List.filter_cons]
        by_cases hph : p h = true
        · rw [if_pos hph, firstIdx, if_neg hhx, firstIdx, if_neg hhy,
            Nat.succ_lt_succ_iff]
          exact ih
        · rw [if_neg hph]
          exact ih

/-- First-occurrence deduplication preserves the relative order of first
occurrences. -/
theorem firstIdx_uniqueFirst_lt :
    ∀ (l : List String) (x y : String), x ∈ l →
      firstIdx x l < firstIdx y l →
      firstIdx x (uniqueFirst l) < firstIdx y (uniqueFirst l)
  | [], x, y, hx, _ => absurd hx (List.not_mem_nil x)
  | h :: t, x, y, hx, hlt => by
    rw [uniqueFirst]
    by_cases hhx : h = x
    · have hy : h ≠ y := by
        intro he
        rw [firstIdx, if_pos hhx, firstIdx, if_pos he] at hlt
        exact Nat.lt_irrefl 0 hlt
      rw [firstIdx, if_pos hhx, firstIdx, if_neg hy]
      exact Nat.succ_pos _
    · by_cases hhy : h = y
      · rw [firstIdx, if_neg hhx, firstIdx, if_pos hhy] at hlt
        exact absurd hlt (Nat.not_lt_zero _)
      · rw [firstIdx, if_neg hhx, firstIdx, if_neg hhy, Nat.succ_lt_succ_iff] at hlt
        have hxt : x ∈ t := (List.mem_cons.mp hx).resolve_left (fun he => hhx he.symm)
        have ih := firstIdx_uniqueFirst_lt t x y hxt hlt
        have hmem : x ∈ uniqueFirst t := (mem_uniqueFirst x t).mpr hxt
        have hf := firstIdx_filter_lt (fun z => decide (z ≠ h)) (uniqueFirst t) x y
          hmem (by simp only [decide_eq_true_eq]; exact fun he => hhx he.symm)
          (by simp only [decide_eq_true_eq]; exact fun he => hhy he.symm) ih
        rw [firstIdx, if_neg hhx, firstIdx, if_neg hhy, Nat.succ_lt_succ_iff]
        exact hf

/-- The shop ids of the written summaries, in write order, are exactly the
target-date shop-id sequence deduplicated to first occurrences. -/
theorem summariesFor_map_shop_id (df : List LogRecord) (d now : Int) :
    (summariesFor df d now).map (fun sm => sm.shop_id) =
      uniqueFirst ((df_today df d).filterMap (fun r => r.shop_id)) := by
  rw [summariesFor, List.map_map, unique_shop_ids]
  exact List.map_id _

/-- C7: upserts happen in first-encounter order: if shop `A`'s first
target-date row precedes shop `B`'s in the fetched sequence, then `A`'s
summary is written before `B`'s. -/
theorem upsert_order_first_encounter (df : List LogRecord) (d now : Int)
    (A B : String)
    (hA : A ∈ (df_today df d).filterMap (fun r => r.shop_id))
    (_hB : B ∈ (df_today df d).filterMap (fun r => r.shop_id))
    (horder : firstIdx A ((df_today df d).filterMap (fun r => r.shop_id)) <
      firstIdx B ((df_today df d).filterMap (fun r => r.shop_id))) :
    firstIdx A ((summariesFor df d now).map (fun sm => sm.shop_id)) <
      firstIdx B ((summariesFor df d now).map (fun sm => sm.shop_id)) := by
  rw [summariesFor_map_shop_id]
  exact firstIdx_uniqueFirst_lt _ A B hA horder

/-- Witness for C7: with shop "A"'s row fetched before shop "B"'s, "A" is
upserted first. -/
theorem upsert_order_first_encounter_witness :
    firstIdx ("A") ((summariesFor [sampleRow, sampleRowB] 0 0).map
      (fun sm => sm.shop_id)) <
    firstIdx ("B") ((summariesFor [sampleRow, sampleRowB] 0 0).map
      (fun sm => sm.shop_id)) :=
  upsert_order_first_encounter [sampleRow, sampleRowB] 0 0 ("A") ("B")
    (by decide) (by decide) (by decide)

/-- C9: a shop with at least one target-date row whose matching rows all
have null phone numbers still receives a summary, with count 0; and every
written count is non-negative. -/
theorem null_phone_shop_written (df : List LogRecord) (d now : Int) (shop : String)
    (hrow : ∃ r ∈ df_today df d, r.shop_id = some shop)
    (hnull : ∀ r ∈ df_today df d, r.shop_id = some shop → r.phone_number = none) :
    (∃ sm ∈ summariesFor df d now, sm.shop_id = shop ∧ sm.unique_customers = 0) ∧
    (∀ sm ∈ summariesFor df d now, 0 ≤ sm.unique_customers) := by
  constructor
  · obtain ⟨r, hrmem, hrshop⟩ := hrow
    have hseq : shop ∈ (df_today df d).filterMap (fun x => x.shop_id) :=
      List.mem_filterMap.mpr ⟨r, hrmem, by rw [hrshop]⟩
    have hshops : shop ∈ unique_shop_ids (df_today df d) :=
      (mem_uniqueFirst shop _).mpr hseq
    refine ⟨_, List.mem_map_of_mem _ hshops, rfl, ?_⟩
    have hzero : (df_shop (df_today df d) shop).filterMap
        (fun x => x.phone_number) = [] := by
      rw [List.filterMap_eq_nil_iff]
      intro r' hr'
      rw [df_shop, List.mem_filter, decide_eq_true_eq] at hr'
      exact hnull r' hr'.1 hr'.2
    rw [unique_customers, hzero]
    rfl
  · intro sm _
    exact Nat.zero_le _

/-- Witness for C9: shop "Z" has one target-date row whose phone number is
null; it still gets a summary with count 0. -/
theorem null_phone_shop_written_witness :
    (∃ sm ∈ summariesFor [rowZ] 0 0,
      sm.shop_id = "Z" ∧ sm.unique_customers = 0) ∧
    (∀ sm ∈ summariesFor [rowZ] 0 0, 0 ≤ sm.unique_customers) :=
  null_phone_shop_written [rowZ] 0 0 ("Z") (by decide) (by decide)

/-- Python `random.randint(a, b)` does not raise when `a ≤ b`. -/
theorem randint_eq_some (a b draw : Nat) (h : a ≤ b) :
    randint a b draw = some (randintVal a b draw) := by
  rw [randint, if_pos h, randintVal]

/-- The value of a successful `randint` is at most the upper bound. -/
theorem randintVal_le (a b draw : Nat) (h : a ≤ b) : randintVal a b draw ≤ b := by
  rw [randintVal]
  have hm : draw % (b - a + 1) < b - a + 1 := Nat.mod_lt _ (Nat.succ_pos _)
  omega

/-- The value of a successful `randint` is at least the lower bound. -/
theorem le_randintVal (a b draw : Nat) : a ≤ randintVal a b draw :=
  Nat.le_add_right _ _

/-- One (day, shop) block has exactly the drawn number of rows. -/
theorem length_shopDayRows (today : Int) (cap : Nat) (dw : GenDraws)
    (off : Nat) (s : String) :
    (shopDayRows today cap dw off s).length =
      randintVal 5 cap (dw.count off s) := by
  rw [shopDayRows, List.length_map, List.length_range]

/-- A generated row's timestamp falls on the calendar day it was built
for: the random time of day never overflows into the next day. -/
theorem dateOf_mkRow (today : Int) (dw : GenDraws) (off : Nat)
    (shop : String) (i : Nat) :
    dateOf (mkRow today dw off shop i).created_at = today - (off : Int) := by
  have hh := randintVal_le 0 23 (dw.hour off shop i) (by omega)
  have hm := randintVal_le 0 59 (dw.minute off shop i) (by omega)
  have hs := randintVal_le 0 59 (dw.second off shop i) (by omega)
  rw [mkRow, dateOf]
  have hlt : ((randintVal 0 23 (dw.hour off shop i) * 3600 +
      randintVal 0 59 (dw.minute off shop i) * 60 +
      randintVal 0 59 (dw.second off shop i) : Nat) : Int) < 86400 := by
    have : (randintVal 0 23 (dw.hour off shop i) * 3600 +
        randintVal 0 59 (dw.minute off shop i) * 60 +
        randintVal 0 59 (dw.second off shop i) : Nat) < 86400 := by omega
    exact_mod_cast this
  have hge : (0 : Int) ≤ ((randintVal 0 23 (dw.hour off shop i) * 3600 +
      randintVal 0 59 (dw.minute off shop i) * 60 +
      randintVal 0 59 (dw.second off shop i) : Nat) : Int) :=
    Int.natCast_nonneg _
  rw [add_comm, Int.add_mul_ediv_right _ _ (by norm_num : (86400 : Int) ≠ 0),
    Int.ediv_eq_zero_of_lt hge hlt, zero_add]

/-- Every row of one (day, shop) block carries that shop id and that
calendar date. -/
theorem mem_shopDayRows (today : Int) (cap : Nat) (dw : GenDraws) (off : Nat)
    (s : String) (r : GenRecord) (h : r ∈ shopDayRows today cap dw off s) :
    r.shop_id = s ∧ dateOf r.created_at = today - (off : Int) := by
  rw [shopDayRows] at h
  obtain ⟨i, _, rfl⟩ := List.mem_map.mp h
  exact ⟨rfl, dateOf_mkRow today dw off s i⟩

/-- With `5 ≤ cap` no draw raises, so the per-day shop loop produces its
total counterpart. -/
theorem genForShops_eq (today : Int) (cap : Nat) (dw : GenDraws) (off : Nat)
    (h : 5 ≤ cap) :
    ∀ ss : List String,
      genForShops today cap dw off ss = some (genShopsT today cap dw off ss)
  | [] => rfl
  | s :: ss => by
    have ih := genForShops_eq today cap dw off h ss
    rw [genForShops, ih, genShopDay, randint_eq_some 5 cap _ h, Option.map_some']
    rfl

/-- With `5 ≤ cap` no draw raises, so the day loop produces its total
counterpart. -/
theorem genForDays_eq (today : Int) (cap : Nat) (dw : GenDraws)
    (shopIds : List String) (h : 5 ≤ cap) :
    ∀ ds : List Nat,
      genForDays today cap dw shopIds ds = some (genDaysT today cap dw shopIds ds)
  | [] => rfl
  | d :: ds => by
    have ih := genForDays_eq today cap dw shopIds h ds
    rw [genForDays, ih, genForShops_eq today cap dw d h shopIds]
    rfl

/-- With `5 ≤ cap` the generator succeeds and produces the total rows. -/
theorem generate_eq (shopIds : List String) (cap daysBack : Nat) (today : Int)
    (dw : GenDraws) (h : 5 ≤ cap) :
    generate_test_data shopIds cap daysBack today dw =
      some (genDaysT today cap dw shopIds (List.range (daysBack + 1))) :=
  genForDays_eq today cap dw shopIds h (List.range (daysBack + 1))

/-- Per-day row totals: between 5 and `cap` rows for each shop. -/
theorem length_genShopsT (today : Int) (cap : Nat) (dw : GenDraws) (off : Nat)
    (h : 5 ≤ cap) :
    ∀ ss : List String,
      5 * ss.length ≤ (genShopsT today cap dw off ss).length ∧
      (genShopsT today cap dw off ss).length ≤ cap * ss.length
  | [] => by simp [genShopsT]
  | s :: ss => by
    have ih := length_genShopsT today cap dw off h ss
    have h1 := le_randintVal 5 cap (dw.count off s)
    have h2 := randintVal_le 5 cap (dw.count off s) h
    rw [genShopsT, List.length_append, length_shopDayRows, List.length_cons,
      Nat.mul_succ, Nat.mul_succ]
    omega

/-- Row totals over a list of days. -/
theorem length_genDaysT (today : Int) (cap : Nat) (dw : GenDraws)
    (shopIds : List String) (h : 5 ≤ cap) :
    ∀ ds : List Nat,
      5 * shopIds.length * ds.length ≤ (genDaysT today cap dw shopIds ds).length ∧
      (genDaysT today cap dw shopIds ds).length ≤ cap * shopIds.length * ds.length
  | [] => by simp [genDaysT]
  | d :: ds => by
    have ih := length_genDaysT today cap dw shopIds h ds
    have hs := length_genShopsT today cap dw d h shopIds
    rw [genDaysT, List.length_append, List.length_cons, Nat.mul_succ, Nat.mul_succ]
    omega

/-- Per-shop per-day counting distributes over concatenation. -/
theorem shopDayCount_append (xs ys : List GenRecord) (s : String) (d : Int) :
    shopDayCount (xs ++ ys) s d = shopDayCount xs s d + shopDayCount ys s d :=
  List.countP_append _ _ _

/-- One (day, shop) block contributes its full size to its own
(shop, date) count and nothing to any other. -/
theorem shopDayCount_shopDayRows (today : Int) (cap : Nat) (dw : GenDraws)
    (off : Nat) (s' s : String) (d : Int) :
    shopDayCount (shopDayRows today cap dw off s') s d =
      if s' = s ∧ d = today - (off : Int) then
        randintVal 5 cap (dw.count off s') else 0 := by
  by_cases hc : s' = s ∧ d = today - (off : Int)
  · rw [if_pos hc, shopDayCount, ← length_shopDayRows today cap dw off s']
    rw [List.countP_eq_length]
    intro r hr
    have hf := mem_shopDayRows today cap dw off s' r hr
    simp only [decide_eq_true_eq]
    exact ⟨hf.1.trans hc.1, hf.2.trans hc.2.symm⟩
  · rw [if_neg hc, shopDayCount, List.countP_eq_zero]
    intro r hr hp
    have hf := mem_shopDayRows today cap dw off s' r hr
    simp only [decide_eq_true_eq] at hp
    exact hc ⟨hf.1.symm.trans hp.1, hp.2.symm.trans hf.2⟩

/-- Per-shop per-day count over one day's rows, for distinct shop ids. -/
theorem shopDayCount_genShopsT (today : Int) (cap : Nat) (dw : GenDraws)
    (off : Nat) (s : String) (d : Int) :
    ∀ ss : List String, ss.Nodup →
      shopDayCount (genShopsT today cap dw off ss) s d =
        if s ∈ ss ∧ d = today - (off : Int) then
          randintVal 5 cap (dw.count off s) else 0
  | [], _ => by simp [genShopsT, shopDayCount]
  | s' :: ss, hnd => by
    have ih := shopDayCount_genShopsT today cap dw off s d ss
      (List.nodup_cons.mp hnd).2
    rw [genShopsT, shopDayCount_append,
      shopDayCount_shopDayRows today cap dw off s' s d, ih]
    by_cases hs : s' = s
    · subst hs
      have hns : s' ∉ ss := (List.nodup_cons.mp hnd).1
      by_cases hd : d = today - (off : Int)
      · rw [if_pos ⟨rfl, hd⟩, if_neg (fun hc => hns hc.1),
          if_pos ⟨List.mem_cons_self _ _, hd⟩, Nat.add_zero]
      · rw [if_neg (fun hc => hd hc.2), if_neg (fun hc => hd hc.2),
          if_neg (fun hc => hd hc.2)]
    · rw [if_neg (fun hc => hs hc.1), Nat.zero_add]
      by_cases hmem : s ∈ ss
      · by_cases hd : d = today - (off : Int)
        · rw [if_pos ⟨hmem, hd⟩, if_pos ⟨List.mem_cons_of_mem _ hmem, hd⟩]
        · rw [if_neg (fun hc => hd hc.2), if_neg (fun hc => hd hc.2)]
      · rw [if_neg (fun hc => hmem hc.1), if_neg (fun hc =>
          (List.mem_cons.mp hc.1).elim (fun he => hs he.symm) hmem)]

/-- Per-shop per-day count over the whole generated data set, for
distinct shop ids and distinct days. -/
theorem shopDayCount_genDaysT (today : Int) (cap : Nat) (dw : GenDraws)
    (shopIds : List String) (hnd : shopIds.Nodup) (s : String) (off : Nat) :
    ∀ ds : List Nat, ds.Nodup →
      shopDayCount (genDaysT today cap dw shopIds ds) s (today - (off : Int)) =
        if off ∈ ds ∧ s ∈ shopIds then randintVal 5 cap (dw.count off s) else 0
  | [], _ => by simp [genDaysT, shopDayCount]
  | d :: ds, hndd => by
    have ih := shopDayCount_genDaysT today cap dw shopIds hnd s off ds
      (List.nodup_cons.mp hndd).2
    rw [genDaysT, shopDayCount_append,
      shopDayCount_genShopsT today cap dw d s (today - (off : Int)) shopIds hnd, ih]
    have hdate : (today - (off : Int) = today - (d : Int)) ↔ off = d := by
      rw [sub_right_inj, Nat.cast_inj]
    by_cases hod : off = d
    · subst hod
      have hnds : off ∉ ds := (List.nodup_cons.mp hndd).1
      by_cases hsm : s ∈ shopIds
      · rw [if_pos ⟨hsm, rfl⟩, if_neg (fun hc => hnds hc.1),
          if_pos ⟨List.mem_cons_self _ _, hsm⟩, Nat.add_zero]
      · rw [if_neg (fun hc => hsm hc.1), if_neg (fun hc => hsm hc.2),
          if_neg (fun hc => hsm hc.2), Nat.add_zero]
    · rw [if_neg (fun hc => hod (hdate.mp hc.2)), Nat.zero_add]
      by_cases hmem : off ∈ ds
      · by_cases hsm : s ∈ shopIds
        · rw [if_pos ⟨hmem, hsm⟩, if_pos ⟨List.mem_cons_of_mem _ hmem, hsm⟩]
        · rw [if_neg (fun hc => hsm hc.2), if_neg (fun hc => hsm hc.2)]
      · rw [if_neg (fun hc => hmem hc.1), if_neg (fun hc =>
          (List.mem_cons.mp hc.1).elim (fun he => hod he) hmem)]

/-- Every generated row belongs to one of the generated days and one of
the given shops. -/
theorem mem_genShopsT (today : Int) (cap : Nat) (dw : GenDraws) (off : Nat) :
    ∀ (ss : List String) (r : GenRecord), r ∈ genShopsT today cap dw off ss →
      r.shop_id ∈ ss ∧ dateOf r.created_at = today - (off : Int)
  | [], r, h => absurd h (List.not_mem_nil r)
  | s :: ss, r, h => by
    rcases List.mem_append.mp h with h1 | h2
    · have hf := mem_shopDayRows today cap dw off s r h1
      exact ⟨hf.1 ▸ List.mem_cons_self s ss, hf.2⟩
    · have ih := mem_genShopsT today cap dw off ss r h2
      exact ⟨List.mem_cons_of_mem s ih.1, ih.2⟩

/-- Every generated row belongs to one of the generated days. -/
theorem mem_genDaysT (today : Int) (cap : Nat) (dw : GenDraws)
    (shopIds : List String) :
    ∀ (ds : List Nat) (r : GenRecord), r ∈ genDaysT today cap dw shopIds ds →
      r.shop_id ∈ shopIds ∧ ∃ d ∈ ds, dateOf r.created_at = today - (d : Int)
  | [], r, h => absurd h (List.not_mem_nil r)
  | d :: ds, r, h => by
    rcases List.mem_append.mp h with h1 | h2
    · have hf := mem_genShopsT today cap dw d shopIds r h1
      exact ⟨hf.1, d, List.mem_cons_self d ds, hf.2⟩
    · have ih := mem_genDaysT today cap dw shopIds ds r h2
      exact ⟨ih.1, ih.2.imp (fun x hx => ⟨List.mem_cons_of_mem d hx.1, hx.2⟩)⟩

/-- On a successful generation with distinct shop ids, the (shop, day)
row count is exactly that pair's `randint(5, cap)` draw. -/
theorem shopDayCount_generate (shopIds : List String) (cap daysBack : Nat)
    (today : Int) (dw : GenDraws) (rows : List GenRecord) (h5 : 5 ≤ cap)
    (hgen : generate_test_data shopIds cap daysBack today dw = some rows)
    (hnd : shopIds.Nodup) (off : Nat) (hoff : off ≤ daysBack) (s : String)
    (hs : s ∈ shopIds) :
    shopDayCount rows s (today - (off : Int)) =
      randintVal 5 cap (dw.count off s) := by
  rw [generate_eq shopIds cap daysBack today dw h5] at hgen
  obtain rfl : genDaysT today cap dw shopIds (List.range (daysBack + 1)) = rows :=
    Option.some.inj hgen
  rw [shopDayCount_genDaysT today cap dw shopIds hnd s off
    (List.range (daysBack + 1)) (List.nodup_range _)]
  rw [if_pos ⟨List.mem_range.mpr (by omega), hs⟩]

/-- With `cap < 5` and at least one shop, the very first
`random.randint(5, cap)` raises, so generation yields no rows at all
(nothing has been inserted at that point). -/
theorem generate_none_of_cap_lt (shopIds : List String) (cap daysBack : Nat)
    (today : Int) (dw : GenDraws) (hcap : cap < 5) (hne : shopIds ≠ []) :
    generate_test_data shopIds cap daysBack today dw = none := by
  obtain ⟨s, ss, rfl⟩ := List.exists_cons_of_ne_nil hne
  rw [generate_test_data, List.range_succ_eq_map, genForDays]
  have hshop : genForShops today cap dw 0 (s :: ss) = none := by
    rw [genForShops, genShopDay, randint, if_neg (by omega)]
    cases genForShops today cap dw 0 ss <;> rfl
  rw [hshop]

/-- C8: on every successful outcome of the draws with three shops,
`num_logs_per_shop = 10` and `days_back = 1`, the total number of rows is
in [30, 60]; in general each shop gets between 5 and `cap` rows per
generated day, and every row falls on one of the `days_back + 1`
consecutive days ending today. -/
theorem generator_row_bounds (shopIds : List String) (cap daysBack : Nat)
    (today : Int) (dw : GenDraws) (rows : List GenRecord) (h5 : 5 ≤ cap)
    (hgen : generate_test_data shopIds cap daysBack today dw = some rows) :
    (shopIds.length = 3 → cap = 10 → daysBack = 1 →
      30 ≤ rows.length ∧ rows.length ≤ 60) ∧
    (shopIds.Nodup → ∀ off ≤ daysBack, ∀ s ∈ shopIds,
      5 ≤ shopDayCount rows s (today - (off : Int)) ∧
      shopDayCount rows s (today - (off : Int)) ≤ cap) ∧
    (∀ r ∈ rows, r.shop_id ∈ shopIds ∧
      ∃ off ≤ daysBack, dateOf r.created_at = today - (off : Int)) := by
  have hgen0 := hgen
  rw [generate_eq shopIds cap daysBack today dw h5] at hgen0
  obtain rfl : genDaysT today cap dw shopIds (List.range (daysBack + 1)) = rows :=
    Option.some.inj hgen0
  refine ⟨?_, ?_, ?_⟩
  · intro h3 h10 h1
    subst h10
    subst h1
    have hlen := length_genDaysT today 10 dw shopIds h5 (List.range (1 + 1))
    rw [List.length_range, h3] at hlen
    omega
  · intro hnd off hoff s hs
    rw [shopDayCount_generate shopIds cap daysBack today dw _ h5 hgen hnd
      off hoff s hs]
    exact ⟨le_randintVal 5 cap _, randintVal_le 5 cap _ h5⟩
  · intro r hr
    obtain ⟨h1, d, hd, h2⟩ :=
      mem_genDaysT today cap dw shopIds (List.range (daysBack + 1)) r hr
    exact ⟨h1, d, Nat.lt_succ_iff.mp (List.mem_range.mp hd), h2⟩

/-- Witness for C8: the all-zero draw outcome with three shops, cap 10,
one day back gives 5 rows per shop per day, 30 in total. -/
theorem generator_row_bounds_witness :
    30 ≤ (genDaysT 0 10 constDraws ["A", "B", "C"] (List.range 2)).length ∧
    (genDaysT 0 10 constDraws ["A", "B", "C"] (List.range 2)).length ≤ 60 :=
  (generator_row_bounds ["A", "B", "C"] 10 1 0 constDraws
    (genDaysT 0 10 constDraws ["A", "B", "C"] (List.range 2))
    (by decide) rfl).1 rfl rfl rfl

/-- C10: the per-shop-per-day size is drawn from `randint(5, cap)`, so
with `cap < 5` and at least one shop the generator raises before
producing any rows, and on success every processed (shop, day) has at
least 5 rows. -/
theorem generator_min_five (shopIds : List String) (cap daysBack : Nat)
    (today : Int) (dw : GenDraws) :
    (cap < 5 → shopIds ≠ [] →
      generate_test_data shopIds cap daysBack today dw = none) ∧
    (∀ rows, generate_test_data shopIds cap daysBack today dw = some rows →
      shopIds.Nodup → ∀ off ≤ daysBack, ∀ s ∈ shopIds,
        5 ≤ shopDayCount rows s (today - (off : Int))) := by
  constructor
  · exact generate_none_of_cap_lt shopIds cap daysBack today dw
  · intro rows hgen hnd off hoff s hs
    by_cases h5 : 5 ≤ cap
    · rw [shopDayCount_generate shopIds cap daysBack today dw rows h5 hgen hnd
        off hoff s hs]
      exact le_randintVal 5 cap _
    · exfalso
      have hne : shopIds ≠ [] := List.ne_nil_of_mem hs
      rw [generate_none_of_cap_lt shopIds cap daysBack today dw (by omega) hne]
        at hgen
      exact Option.noConfusion hgen

/-- Witness for C10: `num_logs_per_shop = 3 < 5` raises for one shop; and
on a successful run with cap 10, shop "A" gets at least 5 rows today. -/
theorem generator_min_five_witness :
    generate_test_data ["A"] 3 0 0 constDraws = none ∧
    5 ≤ shopDayCount (genDaysT 0 10 constDraws ["A"] (List.range 1)) "A"
      ((0 : Int) - ((0 : Nat) : Int)) :=
  ⟨(generator_min_five ["A"] 3 0 0 constDraws).1 (by decide) (by decide),
    (generator_min_five ["A"] 10 0 0 constDraws).2
      (genDaysT 0 10 constDraws ["A"] (List.range 1)) rfl (by decide)
      0 (by decide) "A" (by decide)⟩

end Collbine
